import Mathlib

/-!
Shallow embedding of the Focal-Loss-for-LightGBM notebook
(`examples/Hyperopt_LightGBM_with_Focal_Loss.ipynb`) and proofs of the
specification claims about it.

The numeric layer (`sigmoid`, `fl`, `scipyDerivative`, `focal_loss_lgb`,
`f1_score`, `lgb_focal_f1_score`) is embedded over the real numbers;
the bookkeeping layer (`objectiveRun`, `runTrials`, the hyperparameter
dictionary updates) is embedded over rationals and association lists with
Python-dict semantics (assignment overwrites in place, otherwise appends,
preserving insertion order).
-/

namespace FocalLoss

/-- `def sigmoid(x): return 1./(1. + np.exp(-x))` — the naive sigmoid used by
the notebook (no clamping or stabilization). -/
noncomputable def sigmoid (x : ℝ) : ℝ := 1 / (1 + Real.exp (-x))

/-- The inner focal loss `fl(x, t)` of `focal_loss_lgb`, with `a = alpha`,
`g = gamma` closed over:
`p = 1/(1+np.exp(-x))`;
`-( a*t + (1-a)*(1-t) ) * (( 1 - ( t*p + (1-t)*(1-p)) )**g) * ( t*np.log(p)+(1-t)*np.log(1-p) )`.
The float exponent `**g` is embedded as real `rpow`. -/
noncomputable def fl (a g x t : ℝ) : ℝ :=
  let p : ℝ := 1 / (1 + Real.exp (-x));
  -(a * t + (1 - a) * (1 - t)) * (1 - (t * p + (1 - t) * (1 - p))) ^ g *
    (t * Real.log p + (1 - t) * Real.log (1 - p))

/-- `scipy.misc.derivative(func, x0, dx, n)` at the default `order=3`: the
three-point stencil `sum_k weights[k] * func(x0 + (k - 1)*dx) / dx**n`, with
weights `[-1/2, 0, 1/2]` for `n=1` and `[1, -2, 1]` for `n=2`. -/
noncomputable def scipyDerivative (f : ℝ → ℝ) (x0 dx : ℝ) (n : ℕ) : ℝ :=
  let weights : List ℝ := if n = 1 then [-(1 / 2), 0, 1 / 2] else [1, -2, 1]
  (((List.range 3).map fun k => weights.getD k 0 * f (x0 + ((k : ℝ) - 1) * dx)).sum) / dx ^ n

/-- `focal_loss_lgb(y_pred, dtrain, alpha, gamma)`: `y_true = dtrain.label`;
`grad = derivative(partial_fl, y_pred, n=1, dx=1e-6)`;
`hess = derivative(partial_fl, y_pred, n=2, dx=1e-6)`; the numpy broadcast of
`partial_fl` over the prediction array pairs each score with its label, so the
derivative is taken independently per sample. -/
noncomputable def focal_loss_lgb (y_pred y_true : List ℝ) (alpha gamma : ℝ) :
    List ℝ × List ℝ :=
  ((y_pred.zip y_true).map fun pt => scipyDerivative (fun z => fl alpha gamma z pt.2) pt.1 1e-6 1,
   (y_pred.zip y_true).map fun pt => scipyDerivative (fun z => fl alpha gamma z pt.2) pt.1 1e-6 2)

/-- `ln(DBL_MAX)` to 12 decimal digits: IEEE-754 double `exp` overflows to
`inf` exactly when its argument exceeds this threshold. -/
def expMaxArg : ℚ := 709782712893384 / 1000000000000

/-- Whether evaluating float64 `np.exp` at argument `y` overflows. -/
def float64ExpOverflows (y : ℚ) : Bool := decide (expMaxArg < y)

/-- Whether the exponential inside `sigmoid x = 1/(1+np.exp(-x))` overflows:
the argument handed to `np.exp` is `-x`. -/
def sigmoidExpOverflows (x : ℚ) : Bool := float64ExpOverflows (-x)

/-- Python `int(q)` on a float: truncation toward zero. -/
def pyTrunc (q : ℚ) : ℤ := if 0 ≤ q then ⌊q⌋ else ⌈q⌉

/-- Python `round(q, n)`: round to `n` decimal digits, ties to even
(banker's rounding), modelled exactly over the rationals. -/
def pyRound (q : ℚ) (n : ℕ) : ℚ :=
  let s : ℚ := q * 10 ^ n
  let f : ℤ := ⌊s⌋
  let r : ℚ := s - f
  let k : ℤ :=
    if r < 1 / 2 then f
    else if 1 / 2 < r then f + 1
    else if f % 2 = 0 then f else f + 1
  (k : ℚ) / 10 ^ n

/-- The mutable search bookkeeping of the notebook: the function attribute
counter `objective.i` and the module-level dict `early_stop_dict` mapping a
trial index to the realized number of boosting rounds. -/
structure SearchState where
  i : ℕ
  early_stop_dict : List (ℕ × ℕ)
  deriving Repr, DecidableEq

/-- `objective.i = 0; early_stop_dict = {}` — the state set up just before
`fmin` is launched. -/
def initState : SearchState := ⟨0, []⟩

/-- Python dict assignment `d[k] = v`: overwrite in place when the key is
present, otherwise append, preserving insertion order. -/
def pyDictSet {κ ν : Type} [BEq κ] (d : List (κ × ν)) (k : κ) (v : ν) : List (κ × ν) :=
  if d.any (fun p => p.1 == k) then d.map (fun p => if p.1 == k then (k, v) else p)
  else d ++ [(k, v)]

/-- Python dict lookup `d[k]` (as an `Option`; `none` models `KeyError`). -/
def pyDictGet {κ ν : Type} [BEq κ] (d : List (κ × ν)) (k : κ) : Option ν :=
  (d.find? fun p => p.1 == k).map Prod.snd

/-- The score/bookkeeping tail of `objective`, given the metric history
`cv_result['f1-mean']` that `lgb.cv` returned:
`early_stop_dict[objective.i] = len(cv_result['f1-mean'])`, then
`score = round(cv_result['f1-mean'][-1], 4)` — an `IndexError` (modelled as
`none`, with the counter not yet incremented) when the history is empty —
then `objective.i += 1; return -score`. -/
def objectiveRun (hist : List ℚ) (st : SearchState) : SearchState × Option ℚ :=
  let d := pyDictSet st.early_stop_dict st.i hist.length
  match hist.getLast? with
  | none => (⟨st.i, d⟩, none)
  | some v => (⟨st.i + 1, d⟩, some (-(pyRound v 4)))

/-- Sequential trial execution as driven by `fmin`: each trial's `lgb.cv`
history is consumed in order by `objective`, threading the search state. -/
def runTrials (hs : List (List ℚ)) (st : SearchState) : SearchState :=
  match hs with
  | [] => st
  | h :: t => runTrials t (objectiveRun h st).1

/-- The `best['num_boost_round'] = early_stop_dict[trials.best_trial['tid']]`
lookup of the notebook's final cell, after a sequential run over the given
per-trial histories: hyperopt assigns `tid`s `0, 1, 2, ...` in submission
order. -/
def bestNumBoostRound (hs : List (List ℚ)) (bestTid : ℕ) : Option ℕ :=
  pyDictGet (runTrials hs initState).early_stop_dict bestTid

/-- A Python value held in the hyperparameter dict: an int or a float. -/
inductive PVal where
  | int (n : ℤ)
  | float (q : ℚ)
  deriving Repr, DecidableEq

/-- The hyperparameter configuration dict handed to `objective` by hyperopt. -/
abbrev Params := List (String × PVal)

/-- Python `int(v)`: identity on ints, truncation toward zero on floats. -/
def pyIntV : PVal → PVal
  | .int n => .int n
  | .float q => .int (pyTrunc q)

/-- The in-place dict mutations at the top of `objective`, all executed before
`lgb.cv` is invoked:
`params['num_boost_round'] = int(params['num_boost_round'])`;
`params['num_leaves'] = int(params['num_leaves'])`;
`params['verbose'] = -1`; `params['seed'] = 1`.
A missing key raises `KeyError`, modelled as `none`. -/
def objectiveParams (params : Params) : Option Params :=
  match pyDictGet params "num_boost_round" with
  | none => none
  | some v1 =>
    let p1 := pyDictSet params "num_boost_round" (pyIntV v1)
    match pyDictGet p1 "num_leaves" with
    | none => none
    | some v2 =>
      let p2 := pyDictSet p1 "num_leaves" (pyIntV v2)
      let p3 := pyDictSet p2 "verbose" (.int (-1))
      some (pyDictSet p3 "seed" (.int 1))

/-- The whole of `objective`, with `lgb.cv` abstracted as a function `cv` from
the (already mutated) configuration dict to the `f1-mean` history: the dict
mutations happen first, `lgb.cv` is invoked on the mutated dict, and the
score/bookkeeping tail consumes the returned history. The mutated dict is
returned alongside because the mutation is visible to the caller (in place). -/
def objective (cv : Params → List ℚ) (params : Params) (st : SearchState) :
    Option (Params × (SearchState × Option ℚ)) :=
  (objectiveParams params).map fun ps => (ps, objectiveRun (cv ps) st)

/-- `sklearn.metrics.f1_score(y_true, y_pred)` for binary labels with
`pos_label=1`: `2*TP / (2*TP + FP + FN)`, returning `0.0` when the
denominator is zero. -/
noncomputable def f1_score (y_true : List ℝ) (y_pred : List ℕ) : ℝ :=
  let pairs := y_true.zip y_pred
  let tp := (pairs.filter fun q => decide (q.1 = 1 ∧ q.2 = 1)).length
  let fp := (pairs.filter fun q => decide (¬q.1 = 1 ∧ q.2 = 1)).length
  let fn := (pairs.filter fun q => decide (q.1 = 1 ∧ ¬q.2 = 1)).length
  if 2 * tp + fp + fn = 0 then 0 else (2 * tp : ℝ) / (2 * tp + fp + fn)

/-- `lgb_focal_f1_score(preds, lgbDataset)`: `preds = sigmoid(preds)`;
`binary_preds = [int(p>0.5) for p in preds]`;
`return 'f1', f1_score(y_true, binary_preds), True` with
`y_true = lgbDataset.get_label()`. -/
noncomputable def lgb_focal_f1_score (preds y_true : List ℝ) : String × ℝ × Bool :=
  let probs := preds.map sigmoid
  let binary_preds := probs.map fun p => if (0.5 : ℝ) < p then (1 : ℕ) else 0
  ("f1", f1_score y_true binary_preds, true)

/-- The standard binary cross-entropy (log-loss) in terms of the raw score:
`-(t*log(p) + (1-t)*log(1-p))` with `p = sigmoid(x)`. -/
noncomputable def bceLoss (x t : ℝ) : ℝ :=
  -(t * Real.log (sigmoid x) + (1 - t) * Real.log (1 - sigmoid x))

/-! ### Helper lemmas -/

lemma scipyDerivative_one (f : ℝ → ℝ) (x h : ℝ) :
    scipyDerivative f x h 1 = (f (x + h) - f (x - h)) / (2 * h) := by
  have h0 : x + ((0 : ℕ) - 1 : ℝ) * h = x - h := by push_cast; ring
  have h2 : x + ((2 : ℕ) - 1 : ℝ) * h = x + h := by push_cast; ring
  simp [scipyDerivative, List.range_succ, h0, h2]
  ring_nf

lemma scipyDerivative_two (f : ℝ → ℝ) (x h : ℝ) :
    scipyDerivative f x h 2 = (f (x + h) - 2 * f x + f (x - h)) / h ^ 2 := by
  have h0 : x + ((0 : ℕ) - 1 : ℝ) * h = x - h := by push_cast; ring
  have h1 : x + ((1 : ℕ) - 1 : ℝ) * h = x := by push_cast; ring
  have h2 : x + ((2 : ℕ) - 1 : ℝ) * h = x + h := by push_cast; ring
  simp [scipyDerivative, List.range_succ, h0, h1, h2]
  ring_nf

lemma getD_map_zip {α β γ : Type} (f : α × β → γ) (l1 : List α) (l2 : List β)
    (d1 : α) (d2 : β) (dg : γ) (i : ℕ) (h1 : i < l1.length) (h2 : i < l2.length) :
    ((l1.zip l2).map f).getD i dg = f (l1.getD i d1, l2.getD i d2) := by
  induction l1 generalizing l2 i with
  | nil => simp at h1
  | cons a t ih =>
    cases l2 with
    | nil => simp at h2
    | cons b t2 =>
      cases i with
      | zero => simp
      | succ j =>
        simp only [List.zip_cons_cons, List.map_cons, List.getD_cons_succ]
        exact ih t2 j (Nat.lt_of_succ_lt_succ h1) (Nat.lt_of_succ_lt_succ h2)

lemma find?_map_overwrite {κ ν : Type} [BEq κ] [LawfulBEq κ]
    (t : List (κ × ν)) (k : κ) (v : ν) (h : t.any (fun p => p.1 == k) = true) :
    (t.map fun p => if p.1 == k then (k, v) else p).find? (fun p => p.1 == k) =
      some (k, v) := by
  induction t with
  | nil => simp at h
  | cons a t ih =>
    by_cases ha : (a.1 == k) = true
    · rw [List.map_cons, if_pos ha, List.find?_cons_of_pos _ (by simp)]
    · have h' : t.any (fun p => p.1 == k) = true := by
        simpa [List.any_cons, ha] using h
      rw [List.map_cons, if_neg ha, List.find?_cons_of_neg (p := fun q : κ × ν => q.1 == k) _ ha,
        ih h']

lemma find?_append_absent {κ ν : Type} [BEq κ] [LawfulBEq κ]
    (t : List (κ × ν)) (k : κ) (v : ν) (h : t.any (fun p => p.1 == k) = false) :
    (t ++ [(k, v)]).find? (fun p => p.1 == k) = some (k, v) := by
  rw [List.find?_append]
  have hnone : t.find? (fun p => p.1 == k) = none := by
    rw [List.find?_eq_none]
    intro p hp
    exact List.any_eq_false.mp h p hp
  rw [hnone]
  simp

lemma pyDictGet_pyDictSet_self {κ ν : Type} [BEq κ] [LawfulBEq κ]
    (d : List (κ × ν)) (k : κ) (v : ν) :
    pyDictGet (pyDictSet d k v) k = some v := by
  unfold pyDictGet pyDictSet
  cases hany : d.any fun p => p.1 == k with
  | true =>
    rw [if_pos rfl, find?_map_overwrite d k v hany]
    rfl
  | false =>
    rw [if_neg Bool.false_ne_true, find?_append_absent d k v hany]
    rfl

lemma find?_map_overwrite_ne {κ ν : Type} [BEq κ] [LawfulBEq κ]
    (t : List (κ × ν)) (k k' : κ) (v : ν) (hkk : (k == k') = false) :
    (t.map fun p => if p.1 == k then (k, v) else p).find? (fun p => p.1 == k') =
      t.find? (fun p => p.1 == k') := by
  induction t with
  | nil => simp
  | cons a t ih =>
    by_cases ha : (a.1 == k) = true
    · have ha1 : a.1 = k := eq_of_beq ha
      have ha' : (a.1 == k') = false := by rw [ha1]; exact hkk
      rw [List.map_cons, if_pos ha, List.find?_cons_of_neg _ (by simp [hkk]),
        List.find?_cons_of_neg _ (by simp [ha']), ih]
    · rw [List.map_cons, if_neg ha]
      by_cases ha' : (a.1 == k') = true
      · rw [List.find?_cons_of_pos (p := fun q : κ × ν => q.1 == k') _ ha',
          List.find?_cons_of_pos (p := fun q : κ × ν => q.1 == k') _ ha']
      · rw [List.find?_cons_of_neg (p := fun q : κ × ν => q.1 == k') _ ha',
          List.find?_cons_of_neg (p := fun q : κ × ν => q.1 == k') _ ha', ih]

lemma pyDictGet_pyDictSet_ne {κ ν : Type} [BEq κ] [LawfulBEq κ]
    (d : List (κ × ν)) (k k' : κ) (v : ν) (h : k' ≠ k) :
    pyDictGet (pyDictSet d k v) k' = pyDictGet d k' := by
  have hkk : (k == k') = false := beq_eq_false_iff_ne.mpr fun e => h e.symm
  unfold pyDictGet pyDictSet
  cases hany : d.any fun p => p.1 == k with
  | true => rw [if_pos rfl, find?_map_overwrite_ne d k k' v hkk]
  | false =>
    rw [if_neg Bool.false_ne_true, List.find?_append]
    have hnone : List.find? (fun p => p.1 == k') [(k, v)] = none := by simp [hkk]
    rw [hnone]
    cases d.find? fun p => p.1 == k' <;> rfl

lemma pyDictGet_cons_ne {κ ν : Type} [BEq κ] (a : κ × ν) (d : List (κ × ν)) (k : κ)
    (h : (a.1 == k) = false) : pyDictGet (a :: d) k = pyDictGet d k := by
  unfold pyDictGet
  rw [List.find?_cons_of_neg _ (by simp [h])]

lemma pyDictSet_append_absent {κ ν : Type} [BEq κ] (d : List (κ × ν)) (k : κ) (v : ν)
    (h : d.any (fun p => p.1 == k) = false) :
    pyDictSet d k v = d ++ [(k, v)] := by
  simp [pyDictSet, h]

lemma keys_lt_any_eq_false (d : List (ℕ × ℕ)) (i : ℕ) (h : ∀ p ∈ d, p.1 < i) :
    d.any (fun p => p.1 == i) = false := by
  rw [List.any_eq_false]
  intro p hp
  simp only [beq_iff_eq]
  exact Nat.ne_of_lt (h p hp)

lemma objectiveRun_step (h : List ℚ) (st : SearchState) (hne : h ≠ [])
    (hkeys : ∀ p ∈ st.early_stop_dict, p.1 < st.i) :
    (objectiveRun h st).1 = ⟨st.i + 1, st.early_stop_dict ++ [(st.i, h.length)]⟩ := by
  obtain ⟨v, hv⟩ : ∃ v, h.getLast? = some v := by
    cases hl : h.getLast? with
    | none => exact absurd (List.getLast?_eq_none_iff.mp hl) hne
    | some v => exact ⟨v, rfl⟩
  simp only [objectiveRun, hv]
  rw [pyDictSet_append_absent _ _ _ (keys_lt_any_eq_false _ _ hkeys)]

lemma runTrials_append (hs : List (List ℚ)) (st : SearchState)
    (hkeys : ∀ p ∈ st.early_stop_dict, p.1 < st.i)
    (hne : ∀ h ∈ hs, h ≠ []) :
    runTrials hs st =
      ⟨st.i + hs.length,
        st.early_stop_dict ++ (List.range' st.i hs.length).zip (hs.map List.length)⟩ := by
  induction hs generalizing st with
  | nil => simp [runTrials]
  | cons h t ih =>
    have hstep := objectiveRun_step h st (hne h (by simp)) hkeys
    have hkeys' : ∀ p ∈ st.early_stop_dict ++ [(st.i, h.length)], p.1 < st.i + 1 := by
      intro p hp
      rcases List.mem_append.mp hp with h1 | h1
      · exact Nat.lt_succ_of_lt (hkeys p h1)
      · have hp1 : p = (st.i, h.length) := by simpa using h1
        rw [hp1]
        exact Nat.lt_succ_self _
    have hne' : ∀ h' ∈ t, h' ≠ [] := fun h' hh' => hne h' (List.mem_cons_of_mem _ hh')
    simp only [runTrials]
    rw [hstep, ih _ hkeys' hne']
    have hi : st.i + 1 + t.length = st.i + (t.length + 1) := by omega
    simp only [List.length_cons, List.map_cons, List.range'_succ, List.zip_cons_cons, hi,
      List.append_assoc, List.singleton_append]

lemma pyDictGet_range'_zip (vals : List ℕ) (s j : ℕ) (hj : j < vals.length) :
    pyDictGet ((List.range' s vals.length).zip vals) (s + j) = some (vals.getD j 0) := by
  induction vals generalizing s j with
  | nil => simp at hj
  | cons a t ih =>
    cases j with
    | zero =>
      simp only [List.length_cons, List.range'_succ, List.zip_cons_cons, Nat.add_zero]
      unfold pyDictGet
      rw [List.find?_cons_of_pos (p := fun q : ℕ × ℕ => q.1 == s) _ (by simp)]
      rfl
    | succ j' =>
      simp only [List.length_cons, List.range'_succ, List.zip_cons_cons]
      rw [pyDictGet_cons_ne _ _ _ (by simp only [beq_eq_false_iff_ne]; omega)]
      rw [show s + (j' + 1) = s + 1 + j' by omega, List.getD_cons_succ]
      exact ih (s + 1) j' (Nat.lt_of_succ_lt_succ hj)

lemma getD_map_length (hs : List (List ℚ)) (j : ℕ) :
    (hs.map List.length).getD j 0 = (hs.getD j []).length := by
  induction hs generalizing j with
  | nil => simp
  | cons h t ih =>
    cases j with
    | zero => simp
    | succ j' =>
      simp only [List.map_cons, List.getD_cons_succ]
      exact ih j'

lemma fl_half_zero (x t : ℝ) : fl (1 / 2) 0 x t = 1 / 2 * bceLoss x t := by
  simp only [fl, bceLoss, sigmoid, Real.rpow_zero]
  ring

lemma sigmoid_zero : sigmoid 0 = 0.5 := by
  unfold sigmoid
  rw [neg_zero, Real.exp_zero]
  norm_num

lemma half_lt_sigmoid_iff (x : ℝ) : (0.5 : ℝ) < sigmoid x ↔ 0 < x := by
  unfold sigmoid
  rw [lt_div_iff₀ (by positivity)]
  constructor
  · intro h
    have hlt : Real.exp (-x) < 1 := by nlinarith
    have := Real.exp_lt_one_iff.mp hlt
    linarith
  · intro h
    have hlt : Real.exp (-x) < 1 := Real.exp_lt_one_iff.mpr (by linarith)
    nlinarith

/-! ### Claims -/

/-- C1: for equal-length `y_pred`/`y_true` and fixed `alpha`, `gamma`,
`focal_loss_lgb` returns a pair `(grad, hess)` of arrays of the same shape as
`y_pred` whose i-th entries are the central finite-difference approximations
with step `h = 1e-6` of the first and second derivatives of the focal loss at
`x = y_pred[i]` with label `y_true[i]`:
`grad_i = (f(x+h) - f(x-h)) / (2h)` and
`hess_i = (f(x+h) - 2 f(x) + f(x-h)) / h^2`, independently per sample. -/
theorem C1_focal_loss_lgb_central_differences
    (y_pred y_true : List ℝ) (alpha gamma : ℝ)
    (hlen : y_pred.length = y_true.length) :
    (focal_loss_lgb y_pred y_true alpha gamma).1.length = y_pred.length ∧
    (focal_loss_lgb y_pred y_true alpha gamma).2.length = y_pred.length ∧
    ∀ i, i < y_pred.length →
      (focal_loss_lgb y_pred y_true alpha gamma).1.getD i 0 =
        (fl alpha gamma (y_pred.getD i 0 + 1e-6) (y_true.getD i 0)
            - fl alpha gamma (y_pred.getD i 0 - 1e-6) (y_true.getD i 0)) / (2 * 1e-6) ∧
      (focal_loss_lgb y_pred y_true alpha gamma).2.getD i 0 =
        (fl alpha gamma (y_pred.getD i 0 + 1e-6) (y_true.getD i 0)
            - 2 * fl alpha gamma (y_pred.getD i 0) (y_true.getD i 0)
            + fl alpha gamma (y_pred.getD i 0 - 1e-6) (y_true.getD i 0)) / (1e-6 : ℝ) ^ 2 := by
  refine ⟨?_, ?_, ?_⟩
  · simp [focal_loss_lgb, hlen]
  · simp [focal_loss_lgb, hlen]
  · intro i hi
    have hi2 : i < y_true.length := hlen ▸ hi
    constructor
    · have hmap := getD_map_zip
        (fun pt => scipyDerivative (fun z => fl alpha gamma z pt.2) pt.1 1e-6 1)
        y_pred y_true 0 0 0 i hi hi2
      calc (focal_loss_lgb y_pred y_true alpha gamma).1.getD i 0
          = scipyDerivative (fun z => fl alpha gamma z (y_true.getD i 0))
              (y_pred.getD i 0) 1e-6 1 := hmap
        _ = _ := scipyDerivative_one _ _ _
    · have hmap := getD_map_zip
        (fun pt => scipyDerivative (fun z => fl alpha gamma z pt.2) pt.1 1e-6 2)
        y_pred y_true 0 0 0 i hi hi2
      calc (focal_loss_lgb y_pred y_true alpha gamma).2.getD i 0
          = scipyDerivative (fun z => fl alpha gamma z (y_true.getD i 0))
              (y_pred.getD i 0) 1e-6 2 := hmap
        _ = _ := scipyDerivative_two _ _ _

/-- Witness for C1 at `y_pred = [0]`, `y_true = [1]`, `alpha = 1/2`,
`gamma = 2`. -/
theorem C1_witness :
    ([(0 : ℝ)].length = [(1 : ℝ)].length) ∧
    ((focal_loss_lgb [0] [1] (1 / 2) 2).1.getD 0 0 =
        (fl (1 / 2) 2 ((0 : ℝ) + 1e-6) 1 - fl (1 / 2) 2 ((0 : ℝ) - 1e-6) 1) / (2 * 1e-6) ∧
      (focal_loss_lgb [0] [1] (1 / 2) 2).2.getD 0 0 =
        (fl (1 / 2) 2 ((0 : ℝ) + 1e-6) 1 - 2 * fl (1 / 2) 2 0 1
            + fl (1 / 2) 2 ((0 : ℝ) - 1e-6) 1) / (1e-6 : ℝ) ^ 2) :=
  ⟨rfl, (C1_focal_loss_lgb_central_differences [0] [1] (1 / 2) 2 rfl).2.2 0 (by decide)⟩

/-- C2 counterexample: at the finite raw score `x = -1000` the exponential
inside the program's naive sigmoid overflows float64 (`exp(1000) = inf`),
contradicting the claim that the exponential never overflows. -/
theorem C2_counterexample : sigmoidExpOverflows (-1000) = true := by
  simp only [sigmoidExpOverflows, float64ExpOverflows, decide_eq_true_eq, expMaxArg]
  norm_num

/-- C2 (amended): the ideal-arithmetic value of the sigmoid always lies in
`[0, 1]` (so the saturated float result does too, and no fault is raised),
but the exponential inside the naive `1/(1+exp(-x))` does overflow exactly
for raw scores below `-ln(DBL_MAX) ≈ -709.78`: the implementation is not the
clamped/stabilized sigmoid the claim requires. -/
theorem C2_sigmoid_range_and_overflow :
    (∀ x : ℝ, 0 ≤ sigmoid x ∧ sigmoid x ≤ 1) ∧
    (∀ x : ℚ, sigmoidExpOverflows x = true ↔ x < -expMaxArg) := by
  constructor
  · intro x
    have hexp : 0 < Real.exp (-x) := Real.exp_pos _
    constructor
    · unfold sigmoid
      positivity
    · unfold sigmoid
      rw [div_le_one (by positivity)]
      linarith
  · intro x
    simp only [sigmoidExpOverflows, float64ExpOverflows, decide_eq_true_eq]
    exact lt_neg

/-- C6: the metric adapter returns exactly the triple
`('f1', f1_score(y_true, binary_preds), True)` where `binary_preds`
thresholds the sigmoid probabilities strictly at 0.5; the threshold fires
exactly for positive raw scores, and a probability of exactly 0.5 (raw score
0) yields prediction 0. -/
theorem C6_lgb_focal_f1_score_spec (preds y_true : List ℝ) :
    lgb_focal_f1_score preds y_true =
      ("f1",
        f1_score y_true
          ((preds.map sigmoid).map fun p => if (0.5 : ℝ) < p then (1 : ℕ) else 0),
        true) ∧
    (∀ x : ℝ, (if (0.5 : ℝ) < sigmoid x then (1 : ℕ) else 0) = if 0 < x then 1 else 0) ∧
    sigmoid 0 = 0.5 ∧
    (if (0.5 : ℝ) < sigmoid 0 then (1 : ℕ) else 0) = 0 := by
  refine ⟨rfl, ?_, sigmoid_zero, ?_⟩
  · intro x
    by_cases h : 0 < x
    · rw [if_pos ((half_lt_sigmoid_iff x).mpr h), if_pos h]
    · rw [if_neg (fun hh => h ((half_lt_sigmoid_iff x).mp hh)), if_neg h]
  · rw [if_neg (by rw [sigmoid_zero]; exact lt_irrefl _)]

/-- C7 counterexample: for the batch `y_pred = [0]`, `y_true = [2]` (label 2
outside {0,1}) `focal_loss_lgb` does produce gradient and Hessian arrays (of
length 1) instead of failing fast with a data-contract violation. -/
theorem C7_counterexample :
    (focal_loss_lgb [0] [2] (1 / 2) 2).1.length = 1 ∧
    (focal_loss_lgb [0] [2] (1 / 2) 2).2.length = 1 := ⟨rfl, rfl⟩

/-- C7 (amended): `focal_loss_lgb` performs no label validation: even when
some label lies outside {0,1} it still returns full-length gradient and
Hessian arrays computed by the finite-difference formulas (there is no
failure path before the derivative computation). -/
theorem C7_no_label_validation (y_pred y_true : List ℝ) (alpha gamma : ℝ)
    (hlen : y_pred.length = y_true.length)
    (_hbad : ∃ t ∈ y_true, t ≠ 0 ∧ t ≠ 1) :
    (focal_loss_lgb y_pred y_true alpha gamma).1.length = y_pred.length ∧
    (focal_loss_lgb y_pred y_true alpha gamma).2.length = y_pred.length := by
  constructor <;> simp [focal_loss_lgb, hlen]

/-- Witness for C7 at `y_pred = [0]`, `y_true = [2]`. -/
theorem C7_witness :
    ([(0 : ℝ)].length = [(2 : ℝ)].length) ∧
    (∃ t ∈ [(2 : ℝ)], t ≠ 0 ∧ t ≠ 1) ∧
    ((focal_loss_lgb [0] [2] (1 / 2) 2).1.length = [(0 : ℝ)].length ∧
      (focal_loss_lgb [0] [2] (1 / 2) 2).2.length = [(0 : ℝ)].length) :=
  ⟨rfl, ⟨2, by simp, by simp, by simp⟩,
    C7_no_label_validation [0] [2] (1 / 2) 2 rfl ⟨2, by simp, by simp, by simp⟩⟩

/-- C9: for `gamma = 0`, `alpha = 1/2` the focal loss coincides with half the
binary log-loss at every raw score and label in {0,1}, and consequently the
gradient and Hessian arrays of `focal_loss_lgb` are exactly (hence within any
tolerance) the log-loss central finite differences scaled by 1/2. -/
theorem C9_gamma_zero_alpha_half (x t : ℝ) (_ht : t = 0 ∨ t = 1) :
    fl (1 / 2) 0 x t = 1 / 2 * bceLoss x t ∧
    ∀ y_pred y_true : List ℝ,
      (focal_loss_lgb y_pred y_true (1 / 2) 0).1 =
        (y_pred.zip y_true).map (fun pt =>
          1 / 2 * ((bceLoss (pt.1 + 1e-6) pt.2 - bceLoss (pt.1 - 1e-6) pt.2) / (2 * 1e-6))) ∧
      (focal_loss_lgb y_pred y_true (1 / 2) 0).2 =
        (y_pred.zip y_true).map (fun pt =>
          1 / 2 * ((bceLoss (pt.1 + 1e-6) pt.2 - 2 * bceLoss pt.1 pt.2
              + bceLoss (pt.1 - 1e-6) pt.2) / (1e-6 : ℝ) ^ 2)) := by
  refine ⟨fl_half_zero x t, fun y_pred y_true => ⟨?_, ?_⟩⟩
  · exact List.map_congr_left fun pt _ => by
      simp only [scipyDerivative_one, fl_half_zero]
      ring
  · exact List.map_congr_left fun pt _ => by
      simp only [scipyDerivative_two, fl_half_zero]
      ring

/-- Witness for C9 at `x = 3`, `t = 1`. -/
theorem C9_witness :
    ((1 : ℝ) = 0 ∨ (1 : ℝ) = 1) ∧ fl (1 / 2) 0 3 1 = 1 / 2 * bceLoss 3 1 :=
  ⟨Or.inr rfl, (C9_gamma_zero_alpha_half 3 1 (Or.inr rfl)).1⟩

/-- C3: when the cv metric history is nonempty, `objective` returns the
negation of its final mean-F1 value rounded to 4 decimal digits, records the
realized round count (the history length) under the current trial counter,
and increments the counter by one. -/
theorem C3_objective_score (hist : List ℚ) (st : SearchState) (v : ℚ)
    (hv : hist.getLast? = some v) :
    (objectiveRun hist st).2 = some (-(pyRound v 4)) ∧
    pyDictGet (objectiveRun hist st).1.early_stop_dict st.i = some hist.length ∧
    (objectiveRun hist st).1.i = st.i + 1 := by
  refine ⟨?_, ?_, ?_⟩
  · simp [objectiveRun, hv]
  · simp only [objectiveRun, hv]
    exact pyDictGet_pyDictSet_self _ _ _
  · simp [objectiveRun, hv]

/-- Witness for C3 on the one-round history `[0.123456]`. -/
theorem C3_witness :
    ([(123456 : ℚ) / 1000000].getLast? = some ((123456 : ℚ) / 1000000)) ∧
    ((objectiveRun [(123456 : ℚ) / 1000000] initState).2 =
        some (-(pyRound ((123456 : ℚ) / 1000000) 4)) ∧
      pyDictGet (objectiveRun [(123456 : ℚ) / 1000000] initState).1.early_stop_dict
        initState.i = some [(123456 : ℚ) / 1000000].length ∧
      (objectiveRun [(123456 : ℚ) / 1000000] initState).1.i = initState.i + 1) :=
  ⟨rfl, C3_objective_score [(123456 : ℚ) / 1000000] initState ((123456 : ℚ) / 1000000) rfl⟩

/-- C4: after a completed sequential run from the fresh state, looking up the
best trial's tid in the realized-rounds dict yields exactly that trial's
realized round count — the tid hyperopt assigns (position in submission
order) coincides with the counter value under which the runner recorded the
rounds. -/
theorem C4_best_num_boost_round (hs : List (List ℚ)) (bestTid : ℕ)
    (hne : ∀ h ∈ hs, h ≠ []) (htid : bestTid < hs.length) :
    bestNumBoostRound hs bestTid = some (hs.getD bestTid []).length := by
  unfold bestNumBoostRound
  rw [runTrials_append hs initState (by simp [initState]) hne]
  simp only [initState, List.nil_append]
  have h1 : bestTid < (hs.map List.length).length := by simpa using htid
  have h2 := pyDictGet_range'_zip (hs.map List.length) 0 bestTid h1
  rw [Nat.zero_add] at h2
  rw [show hs.length = (hs.map List.length).length from (List.length_map _ _).symm, h2,
    getD_map_length]

/-- Witness for C4 on two trials with realized round counts 1 and 2,
best tid 1. -/
theorem C4_witness :
    (∀ h ∈ [[(1 : ℚ)], [(2 : ℚ), (3 : ℚ)]], h ≠ []) ∧
    1 < [[(1 : ℚ)], [(2 : ℚ), (3 : ℚ)]].length ∧
    bestNumBoostRound [[(1 : ℚ)], [(2 : ℚ), (3 : ℚ)]] 1 =
      some ([[(1 : ℚ)], [(2 : ℚ), (3 : ℚ)]].getD 1 []).length :=
  ⟨by simp, by simp,
    C4_best_num_boost_round [[(1 : ℚ)], [(2 : ℚ), (3 : ℚ)]] 1 (by simp) (by simp)⟩

/-- C5: starting from the fresh search state, a completed run over `n`
nonempty histories leaves the trial counter at `n` and the realized-rounds
dict holding exactly the keys `0, ..., n-1` in order — one record per issued
trial identity, no gaps, no duplicates — each bound to its own trial's
realized round count. -/
theorem C5_search_state_bookkeeping (hs : List (List ℚ))
    (hne : ∀ h ∈ hs, h ≠ []) :
    (runTrials hs initState).i = hs.length ∧
    (runTrials hs initState).early_stop_dict.map Prod.fst = List.range hs.length ∧
    (runTrials hs initState).early_stop_dict =
      (List.range hs.length).zip (hs.map List.length) := by
  rw [runTrials_append hs initState (by simp [initState]) hne]
  refine ⟨by simp [initState], ?_, ?_⟩
  · simp only [initState, List.nil_append]
    rw [List.range_eq_range']
    exact List.map_fst_zip _ _ (by simp)
  · simp [initState, List.range_eq_range']

/-- Witness for C5 on two nonempty histories. -/
theorem C5_witness :
    (∀ h ∈ [[(1 : ℚ)], [(2 : ℚ), (3 : ℚ)]], h ≠ []) ∧
    ((runTrials [[(1 : ℚ)], [(2 : ℚ), (3 : ℚ)]] initState).i =
        [[(1 : ℚ)], [(2 : ℚ), (3 : ℚ)]].length ∧
      (runTrials [[(1 : ℚ)], [(2 : ℚ), (3 : ℚ)]] initState).early_stop_dict.map Prod.fst =
        List.range [[(1 : ℚ)], [(2 : ℚ), (3 : ℚ)]].length ∧
      (runTrials [[(1 : ℚ)], [(2 : ℚ), (3 : ℚ)]] initState).early_stop_dict =
        (List.range [[(1 : ℚ)], [(2 : ℚ), (3 : ℚ)]].length).zip
          ([[(1 : ℚ)], [(2 : ℚ), (3 : ℚ)]].map List.length)) :=
  ⟨by simp, C5_search_state_bookkeeping [[(1 : ℚ)], [(2 : ℚ), (3 : ℚ)]] (by simp)⟩

/-- C8 counterexample: on an empty metric history the trial runner returns no
score at all (an `IndexError` from `cv_result['f1-mean'][-1]`, modelled as
`none`), not a well-formed very poor score. -/
theorem C8_counterexample : (objectiveRun [] initState).2 = none := rfl

/-- C8 (amended): on an empty history `objective` first records a realized
round count of 0 under the current trial id, then fails with an `IndexError`
before producing a score: no score is returned and the counter is not
incremented, so the fault propagates to the search loop. -/
theorem C8_empty_history_faults (st : SearchState) :
    (objectiveRun [] st).2 = none ∧
    (objectiveRun [] st).1.i = st.i ∧
    pyDictGet (objectiveRun [] st).1.early_stop_dict st.i = some 0 :=
  ⟨rfl, rfl, pyDictGet_pyDictSet_self _ _ _⟩

/-- C10: `objective` mutates the caller's configuration dict before invoking
the boosting engine: `num_boost_round` and `num_leaves` become the integer
truncations of the floats the search strategy supplied, `verbose = -1` and
`seed = 1` are inserted even if absent, every other entry is untouched, and
the engine is invoked on exactly the mutated dict. -/
theorem C10_objective_param_mutation (cv : Params → List ℚ) (params : Params)
    (st : SearchState) (b l : ℚ)
    (hb : pyDictGet params "num_boost_round" = some (.float b))
    (hl : pyDictGet params "num_leaves" = some (.float l)) :
    ∃ ps : Params, objectiveParams params = some ps ∧
      objective cv params st = some (ps, objectiveRun (cv ps) st) ∧
      pyDictGet ps "num_boost_round" = some (.int (pyTrunc b)) ∧
      pyDictGet ps "num_leaves" = some (.int (pyTrunc l)) ∧
      pyDictGet ps "verbose" = some (.int (-1)) ∧
      pyDictGet ps "seed" = some (.int 1) ∧
      ∀ k, k ≠ "num_boost_round" → k ≠ "num_leaves" → k ≠ "verbose" → k ≠ "seed" →
        pyDictGet ps k = pyDictGet params k := by
  have h2 : pyDictGet (pyDictSet params "num_boost_round" (PVal.int (pyTrunc b)))
      "num_leaves" = some (.float l) := by
    rw [pyDictGet_pyDictSet_ne _ _ _ _
      (by decide : ("num_leaves" : String) ≠ "num_boost_round")]
    exact hl
  have hps : objectiveParams params =
      some (pyDictSet (pyDictSet (pyDictSet (pyDictSet params "num_boost_round"
        (PVal.int (pyTrunc b))) "num_leaves" (PVal.int (pyTrunc l))) "verbose"
        (PVal.int (-1))) "seed" (PVal.int 1)) := by
    simp only [objectiveParams, hb, pyIntV, h2]
  refine ⟨_, hps, ?_, ?_, ?_, ?_, ?_, ?_⟩
  · simp only [objective, hps, Option.map_some']
  · rw [pyDictGet_pyDictSet_ne _ _ _ _
        (by decide : ("num_boost_round" : String) ≠ "seed"),
      pyDictGet_pyDictSet_ne _ _ _ _
        (by decide : ("num_boost_round" : String) ≠ "verbose"),
      pyDictGet_pyDictSet_ne _ _ _ _
        (by decide : ("num_boost_round" : String) ≠ "num_leaves"),
      pyDictGet_pyDictSet_self]
  · rw [pyDictGet_pyDictSet_ne _ _ _ _
        (by decide : ("num_leaves" : String) ≠ "seed"),
      pyDictGet_pyDictSet_ne _ _ _ _
        (by decide : ("num_leaves" : String) ≠ "verbose"),
      pyDictGet_pyDictSet_self]
  · rw [pyDictGet_pyDictSet_ne _ _ _ _
        (by decide : ("verbose" : String) ≠ "seed"),
      pyDictGet_pyDictSet_self]
  · rw [pyDictGet_pyDictSet_self]
  · intro k hk1 hk2 hk3 hk4
    rw [pyDictGet_pyDictSet_ne _ _ _ _ hk4, pyDictGet_pyDictSet_ne _ _ _ _ hk3,
      pyDictGet_pyDictSet_ne _ _ _ _ hk2, pyDictGet_pyDictSet_ne _ _ _ _ hk1]

/-- Witness for C10 on a three-entry configuration dict. -/
theorem C10_witness :
    (pyDictGet [("num_boost_round", PVal.float 150), ("num_leaves", PVal.float 63),
        ("learning_rate", PVal.float (1 / 20))] "num_boost_round" =
      some (.float 150)) ∧
    (pyDictGet [("num_boost_round", PVal.float 150), ("num_leaves", PVal.float 63),
        ("learning_rate", PVal.float (1 / 20))] "num_leaves" = some (.float 63)) ∧
    (∃ ps : Params,
      objectiveParams [("num_boost_round", PVal.float 150), ("num_leaves", PVal.float 63),
        ("learning_rate", PVal.float (1 / 20))] = some ps ∧
      objective (fun _ => []) [("num_boost_round", PVal.float 150),
        ("num_leaves", PVal.float 63), ("learning_rate", PVal.float (1 / 20))] initState =
        some (ps, objectiveRun ((fun _ => ([] : List ℚ)) ps) initState) ∧
      pyDictGet ps "num_boost_round" = some (.int (pyTrunc 150)) ∧
      pyDictGet ps "num_leaves" = some (.int (pyTrunc 63)) ∧
      pyDictGet ps "verbose" = some (.int (-1)) ∧
      pyDictGet ps "seed" = some (.int 1) ∧
      ∀ k, k ≠ "num_boost_round" → k ≠ "num_leaves" → k ≠ "verbose" → k ≠ "seed" →
        pyDictGet ps k =
          pyDictGet [("num_boost_round", PVal.float 150), ("num_leaves", PVal.float 63),
            ("learning_rate", PVal.float (1 / 20))] k) :=
  ⟨rfl, rfl,
    C10_objective_param_mutation (fun _ => []) _ initState 150 63 rfl rfl⟩

end FocalLoss
